import Mathlib

/-!
Verification of the DWARF Alpaca device-protocol and session layer.

Shallow embedding of the core algorithms of the repository:

* `calculate_crc16` — Modbus CRC16 used for BLE frames
  (`dwarf_alpaca/dwarf/ble_packets.py`);
* `choose_index` — nearest-duration exposure index resolution
  (`dwarf_alpaca/dwarf/exposure.py`);
* the websocket request/response correlation tables
  (`dwarf_alpaca/dwarf/ws_client.py`);
* the BLE STA provisioning handshake
  (`dwarf_alpaca/dwarf/ble_provisioner.py`);
* the FITS decoder, the joystick vector composition, the focuser motion
  controller and the capability reference counting
  (`dwarf_alpaca/dwarf/session.py`).

Bytes are modelled as `Nat` (values `< 256` where relevant), Python `int` as
`Int`/`Nat`, Python `float` as `ℚ` for the exact arithmetic paths and as `ℝ`
for the trigonometric joystick path.  Python dictionaries are modelled as
association lists with overwrite-on-assignment semantics.
-/

deriving instance DecidableEq for Except

namespace DwarfAlpaca

/-! ## Modbus CRC16 (`ble_packets.calculate_crc16`) -/

/-- One inner-loop round of `calculate_crc16`: record the low bit, shift
right, and xor the polynomial `0xA001` when the recorded bit was set. -/
def crc16Round (crc : Nat) : Nat :=
  let odd := crc &&& 0x0001
  let crc := crc >>> 1
  if odd = 1 then crc ^^^ 0xA001 else crc

/-- `n`-fold iteration of `crc16Round` (the source runs it 8 times per byte). -/
def crc16Rounds : Nat → Nat → Nat
  | 0, crc => crc
  | n + 1, crc => crc16Rounds n (crc16Round crc)

/-- Fold one data byte into the running CRC: xor the byte in, then run the
eight bit rounds. -/
def crc16Byte (crc value : Nat) : Nat :=
  crc16Rounds 8 (crc ^^^ value)

/-- `ble_packets.calculate_crc16`: Modbus CRC16 with initial value `0xFFFF`
and (reflected) polynomial `0xA001`, masked to 16 bits at the end. -/
def calculate_crc16 (data : List Nat) : Nat :=
  (data.foldl crc16Byte 0xFFFF) &&& 0xFFFF

/-! ## Exposure index resolution (`exposure.ExposureResolver.choose_index`) -/

/-- `exposure.ExposureOption`: one entry of the device's discrete exposure
ladder.  Durations are exact rationals standing for the source's floats. -/
structure ExposureOption where
  index : Int
  seconds : ℚ
deriving DecidableEq, Repr

/-- Python's `min(rest, key=...)` seeded with `first`: fold left, replacing
the current best only on a strictly smaller key, so the earliest minimal
element wins.  The key is the absolute duration difference used by
`choose_index`. -/
def minByAbsDiff (target : ℚ) (first : ExposureOption) (rest : List ExposureOption) :
    ExposureOption :=
  rest.foldl
    (fun best opt => if |opt.seconds - target| < |best.seconds - target| then opt else best)
    first

/-- `ExposureResolver.choose_index`: `None` on an empty ladder or a
non-positive duration, otherwise the index of the option whose duration is
closest to the requested one (`min` with key `abs (seconds - target)`). -/
def choose_index (options : List ExposureOption) (duration : ℚ) : Option Int :=
  match options with
  | [] => none
  | first :: rest =>
      if duration ≤ 0 then none
      else some (minByAbsDiff duration first rest).index

/-! ## Association lists with Python-dict semantics -/

/-- First-match lookup, the reading semantics of a Python dict with unique
keys. -/
def lookupA {α β : Type} [DecidableEq α] : List (α × β) → α → Option β
  | [], _ => none
  | (a, b) :: rest, k => if a = k then some b else lookupA rest k

/-- `dict.pop(k)` / `del`: drop every entry with the given key. -/
def eraseA {α β : Type} [DecidableEq α] (l : List (α × β)) (k : α) : List (α × β) :=
  l.filter (fun e => e.1 ≠ k)

/-- `dict[k] = v`: overwrite-on-assignment. -/
def setA {α β : Type} [DecidableEq α] (l : List (α × β)) (k : α) (v : β) : List (α × β) :=
  (k, v) :: eraseA l k

/-! ## Websocket request correlation (`ws_client.DwarfWsClient`) -/

/-- A `(module_id, command_id)` correlation key. -/
abbrev WsKey := Nat × Nat

/-- The state of an `asyncio.Future` as far as the correlation logic is
concerned: unset, resolved with a parsed message (`cls` identifies the
protobuf class used, `data` the packet payload), or failed with an error. -/
inductive FutureState where
  | pending
  | resolved (cls : Nat) (data : Nat)
  | failed (err : Nat)
deriving DecidableEq, Repr

/-- `ws_client._PendingRequest`: the future to resolve, the expected
response class, and the alias keys with their alternate response classes. -/
structure PendingRequest where
  future : Nat
  response_cls : Nat
  alternate_responses : List (WsKey × Nat)
deriving DecidableEq, Repr

/-- The correlation state of `DwarfWsClient`: the `_pending` table, the
`_pending_aliases` table, and the futures created by `send_request`. -/
structure WsState where
  pending : List (WsKey × PendingRequest)
  pending_aliases : List (WsKey × WsKey)
  futures : List (Nat × FutureState)
deriving DecidableEq, Repr

/-- An inbound control-plane frame, reduced to the fields the correlation
logic reads. -/
structure WsPacket where
  module_id : Nat
  cmd : Nat
  data : Nat
deriving DecidableEq, Repr

/-- `DwarfWsClient._pop_pending_request`: remove the pending request stored
under `key` (if any) together with every alias entry of that request that
currently points back at `key`. -/
def popPendingRequest (st : WsState) (key : WsKey) : Option PendingRequest × WsState :=
  match lookupA st.pending key with
  | none => (none, st)
  | some pr =>
      (some pr,
        { st with
          pending := eraseA st.pending key
          pending_aliases := st.pending_aliases.filter
            (fun e => ¬((lookupA pr.alternate_responses e.1).isSome = true ∧
                        lookupA st.pending_aliases e.1 = some key)) })

/-- `future.set_result` guarded by `future.done()`: only a still-pending
future is resolved. -/
def resolveFuture (futures : List (Nat × FutureState)) (fid cls data : Nat) :
    List (Nat × FutureState) :=
  match lookupA futures fid with
  | some FutureState.pending => setA futures fid (FutureState.resolved cls data)
  | _ => futures

/-- `DwarfWsClient._dispatch_packet`: look the packet key up in `_pending`;
on a miss, follow `_pending_aliases` to the original key and resolve that
request with the alternate response class registered for the alias. -/
def dispatchPacket (st : WsState) (pkt : WsPacket) : WsState :=
  let key : WsKey := (pkt.module_id, pkt.cmd)
  let popped := popPendingRequest st key
  match popped.1 with
  | some pr =>
      { popped.2 with
        futures := resolveFuture popped.2.futures pr.future pr.response_cls pkt.data }
  | none =>
      match lookupA st.pending_aliases key with
      | none => popped.2
      | some original_key =>
          let st2 := { popped.2 with pending_aliases := eraseA popped.2.pending_aliases key }
          let popped2 := popPendingRequest st2 original_key
          match popped2.1 with
          | none => popped2.2
          | some pr =>
              let cls := (lookupA pr.alternate_responses key).getD pr.response_cls
              { popped2.2 with
                futures := resolveFuture popped2.2.futures pr.future cls pkt.data }

/-- `DwarfWsClient._flush_pending`: fail every not-yet-done pending future
with the given error and clear both correlation tables. -/
def flushPending (st : WsState) (err : Nat) : WsState :=
  { pending := []
    pending_aliases := []
    futures := st.futures.map (fun e =>
      (e.1,
        if e.2 = FutureState.pending ∧ st.pending.any (fun p => p.2.future = e.1) = true
        then FutureState.failed err
        else e.2)) }

/-- The registration part of `DwarfWsClient.send_request`: reject the call
when a request with the same key is already pending (the source raises
`RuntimeError` before touching any table); otherwise create the future,
store the pending record and register every alias key.  The `Bool` result
is `false` exactly when the call raised. -/
def send_request (st : WsState) (module_id command_id : Nat) (response_cls : Nat)
    (expected_responses : List (WsKey × Nat)) (new_future : Nat) : WsState × Bool :=
  let key : WsKey := (module_id, command_id)
  if (lookupA st.pending key).isSome then (st, false)
  else
    ({ pending := setA st.pending key
          ⟨new_future, response_cls, expected_responses⟩
       pending_aliases := expected_responses.foldl (fun m e => setA m e.1 key) st.pending_aliases
       futures := setA st.futures new_future FutureState.pending },
     true)

/-- Well-formedness of the correlation state as maintained by the client:
each table has distinct keys, and every alias key registered by a pending
request maps back to that request's primary key. -/
abbrev WsWf (st : WsState) : Prop :=
  st.pending.Pairwise (fun a b => a.1 ≠ b.1) ∧
  st.pending_aliases.Pairwise (fun a b => a.1 ≠ b.1) ∧
  st.futures.Pairwise (fun a b => a.1 ≠ b.1) ∧
  ∀ e ∈ st.pending, ∀ a ∈ e.2.alternate_responses,
    lookupA st.pending_aliases a.1 = some e.1

/-! ## BLE STA provisioning (`ble_provisioner.DwarfBleProvisioner._configure_sta`) -/

/-- The fields of the protobuf `ResGetconfig` read by `_configure_sta`. -/
structure ResGetconfig where
  code : Int
  state : Int
  wifi_mode : Int
  ssid : String
  ip : String
deriving DecidableEq, Repr

/-- The fields of the protobuf `ResSta` read by `_configure_sta`. -/
structure ResSta where
  code : Int
  ip : String
deriving DecidableEq, Repr

/-- A parsed BLE notification, classified by its command byte: `0` carries a
`ResReceiveDataError`, `1` a `ResGetconfig`, `3` a `ResSta`; any other
command byte is skipped by `_await_packet`. -/
inductive BleMsg where
  | recvError (code : Int)
  | config (c : ResGetconfig)
  | sta (s : ResSta)
  | other (cmd : Nat)
deriving DecidableEq, Repr

/-- A GATT write issued by `_configure_sta`: the STA-configure command (with
its `auto_start` flag) or a follow-up get-config query. -/
inductive BleWrite where
  | staCmd (auto_start : Int)
  | getConfigCmd
deriving DecidableEq, Repr

/-- Outcome of `_configure_sta`: success with the reported STA IP, a raised
`ProvisioningError` (with the offending code), or the deadline elapsing. -/
inductive StaOutcome where
  | ok (ip : String)
  | bleError (code : Int)
  | staFailed (code : Int)
  | configFailed (code : Int)
  | timeout
deriving DecidableEq, Repr

/-- The response loop of `_configure_sta` after the STA command was written.
The trace lists the parsed notifications delivered before the deadline; an
exhausted trace is the deadline elapsing inside `_await_packet`.  `sta_ip`
is the running `sta_ip` local.  Also returns the follow-up writes issued. -/
def staLoop : List BleMsg → Option String → StaOutcome × List BleWrite
  | [], _ => (StaOutcome.timeout, [])
  | BleMsg.other _ :: rest, sta_ip => staLoop rest sta_ip
  | BleMsg.recvError code :: _, _ => (StaOutcome.bleError code, [])
  | BleMsg.sta s :: rest, sta_ip =>
      if s.code ≠ 0 then (StaOutcome.staFailed s.code, [])
      else
        let sta_ip' := if s.ip ≠ "" then some s.ip else sta_ip
        if (sta_ip'.getD "") ≠ "" ∧ (sta_ip'.getD "") ≠ "192.168.88.1" then
          (StaOutcome.ok (sta_ip'.getD ""), [])
        else
          let r := staLoop rest sta_ip'
          (r.1, BleWrite.getConfigCmd :: r.2)
  | BleMsg.config c :: rest, sta_ip =>
      if c.code ≠ 0 then (StaOutcome.configFailed c.code, [])
      else if c.state = 2 ∧ c.wifi_mode = 2 ∧ c.ip ≠ "" ∧ c.ip ≠ "192.168.88.1" then
        (StaOutcome.ok c.ip, [])
      else staLoop rest sta_ip

/-- `DwarfBleProvisioner._configure_sta`: short-circuit as success when the
initial config already shows a connected STA (`state == 2`), STA wifi mode
(`wifi_mode == 2`), the desired SSID and a non-empty IP different from the
AP default `192.168.88.1`; otherwise write the STA-configure command (with
`auto_start = 1` iff `state != 2`) and run the response loop. -/
def configure_sta (config : ResGetconfig) (ssid : String) (trace : List BleMsg) :
    StaOutcome × List BleWrite :=
  if config.state = 2 ∧ config.wifi_mode = 2 ∧ config.ssid = ssid ∧
      config.ip ≠ "" ∧ config.ip ≠ "192.168.88.1" then
    (StaOutcome.ok config.ip, [])
  else
    let auto_start : Int := if config.state ≠ 2 then 1 else 0
    let r := staLoop trace none
    (r.1, BleWrite.staCmd auto_start :: r.2)

/-! ## Capability reference counting (`session.DwarfSession.acquire`) -/

/-- The four logical capabilities tracked by `DwarfSession._refs`. -/
inductive Capability where
  | telescope
  | camera
  | focuser
  | filterwheel
deriving DecidableEq, Repr

/-- `DwarfSession.acquire`: increment the capability's reference count,
then attempt to connect (`_ensure_ws`); on failure roll the count back with
`max(0, count - 1)` and re-raise.  `connect_ok` stands for whether the
connection attempt succeeds; the `Bool` result is `false` exactly when the
error propagated to the caller. -/
def acquire (refs : Capability → Int) (device : Capability) (connect_ok : Bool) :
    (Capability → Int) × Bool :=
  let refs1 : Capability → Int := fun c => if c = device then refs c + 1 else refs c
  if connect_ok then (refs1, true)
  else ((fun c => if c = device then max 0 (refs1 c - 1) else refs1 c), false)

/-! ## Focuser motion (`session.DwarfSession.focuser_move` and friends) -/

/-- Clamping into the focuser's `[0, 20000]` step range, the
`max(0, min(·, 20000))` pattern of the source. -/
def clampPos (p : Int) : Int := max 0 (min p 20000)

/-- `DwarfSession._handle_focus_notification`: the position stored for a
device-reported focus value is that value clamped into `[0, 20000]`. -/
def handle_focus_notification (focus_value : Int) : Int := clampPos focus_value

/-- One wait for the focus-update event: `none` is a timeout, `some p` a
focus notification carrying raw device value `p` (stored clamped by
`_handle_focus_notification`). -/
abbrev FocusEvent := Option Int

/-- The single-step branch of `focuser_move` (`steps <= 10`): per step, wait
up to 0.8 s for a notification, fall back to an estimated `±1` step clamped
into range, and stop early once the position crosses the target. -/
def singleStepLoop (target dir : Int) : Nat → Int → List FocusEvent → Int
  | 0, pos, _ => pos
  | n + 1, pos, trace =>
      let pos' := match trace.head?.getD none with
        | none => clampPos (pos + dir)
        | some p => clampPos p
      if (dir > 0 ∧ target ≤ pos') ∨ (dir < 0 ∧ pos' ≤ target) then pos'
      else singleStepLoop target dir n pos' trace.tail

/-- The continuous branch's notification loop (`steps > 10`): wait for
notifications until the deadline (trace exhaustion), updating the position
and breaking once it crosses the target.  Returns the position, whether any
notification was received, and the unconsumed trace. -/
def continuLoop (target dir : Int) : List FocusEvent → Int → Int × Bool × List FocusEvent
  | [], pos => (pos, false, [])
  | ev :: rest, pos =>
      match ev with
      | none => continuLoop target dir rest pos
      | some p =>
          let pos' := clampPos p
          if (dir > 0 ∧ target ≤ pos') ∨ (dir < 0 ∧ pos' ≤ target) then (pos', true, rest)
          else
            let r := continuLoop target dir rest pos'
            (r.1, true, r.2.2)

/-- The body of `DwarfSession._simulate_focus_move`: `abs delta` unit steps,
each clamped into range. -/
def simLoop (dir : Int) : Nat → Int → Int
  | 0, pos => pos
  | n + 1, pos => simLoop dir n (clampPos (pos + dir))

/-- `DwarfSession._simulate_focus_move`: the focuser position after the
simulated stepping loop. -/
def simulate_focus_move (pos delta : Int) : Int :=
  simLoop (if delta > 0 then 1 else -1) delta.natAbs pos

/-- `DwarfSession.focuser_move`: resolve the requested target (`start +
delta` unless an absolute target is given), clamp it into `[0, 20000]`,
return immediately on a zero resulting delta, and otherwise run the
simulation, single-step or continuous branch.  `trace` is the sequence of
focus-event waits observed during the move; with the empty trace every wait
times out (no notification is ever observed).  Returns the final stored
focuser position. -/
def focuser_move (simulation : Bool) (startPos delta0 : Int) (target0 : Option Int)
    (trace : List FocusEvent) : Int :=
  let desired := match target0 with
    | none => startPos + delta0
    | some t => t
  let target := clampPos desired
  let delta := target - startPos
  if delta = 0 then startPos
  else
    let dir : Int := if delta > 0 then 1 else -1
    let steps := delta.natAbs
    if simulation then
      -- `_simulate_focus_move` runs, then the position is overwritten with
      -- the computed target.
      let _ := simulate_focus_move startPos delta
      target
    else if steps ≤ 10 then
      clampPos (singleStepLoop target dir steps startPos trace)
    else
      let r := continuLoop target dir trace startPos
      -- final 0.8 s wait after the drive-stop command
      let afterStop :=
        match r.2.2.head? with
        | some (some p) => (clampPos p, true)
        | _ => (r.1, r.2.1)
      clampPos (if afterStop.2 then afterStop.1 else target)

/-! ## FITS decoding (`session.DwarfSession._decode_fits`)

Bytes are `Nat` values; Python strings appearing inside the decoder (header
keywords and values) are byte lists.  Floats are exact rationals: the only
inexact source operations are the IEEE decodes for `BITPIX ∈ {-32, -64}`,
which are exact for finite floats (non-finite values are mapped to a decode
error here). -/

/-- UTF-8/ASCII code points of a Lean string, for building byte-level keys
and synthetic test files. -/
def strBytes (s : String) : List Nat := s.data.map Char.toNat

/-- `length l < n`, computed by dropping rather than counting (structural
on `n`, cheap on multi-kilobyte byte strings). -/
def shorterThan {α : Type} (l : List α) : Nat → Bool
  | 0 => false
  | n + 1 => (l.drop n).isEmpty

/-- `offset + 80 > len(content)` of the source, phrased on the bytes
remaining at `offset`: fewer than 80 bytes are left. -/
def shortCard (remaining : List Nat) : Bool := shorterThan remaining 80

/-- The whitespace set of Python's `str.strip()`. -/
def isSpaceByte (b : Nat) : Bool :=
  b = 32 || b = 9 || b = 10 || b = 13 || b = 11 || b = 12

/-- Python `str.strip()` on a byte string. -/
def stripBytes (l : List Nat) : List Nat :=
  ((l.dropWhile isSpaceByte).reverse.dropWhile isSpaceByte).reverse

/-- Python `bytes.decode("ascii", errors="ignore")`: drop non-ASCII bytes. -/
def asciiIgnore (l : List Nat) : List Nat := l.filter (fun b => b < 128)

/-- `value_field.split("/", 1)[0]`: the prefix before the first `/`. -/
def beforeSlash (l : List Nat) : List Nat := l.takeWhile (fun b => b ≠ 47)

/-- ASCII decimal digit. -/
def isDigitByte (b : Nat) : Bool := 48 ≤ b && b ≤ 57

/-- Numeric value of a digit string (digits already validated). -/
def digitsVal (l : List Nat) : Nat := l.foldl (fun a b => a * 10 + (b - 48)) 0

/-- Python `int(s)` on a stripped byte string: optional sign, then a
non-empty run of digits. -/
def parseNatBytes (l : List Nat) : Option Nat :=
  if l ≠ [] ∧ l.all isDigitByte then some (digitsVal l) else none

/-- Python `int(s)` with sign handling. -/
def parseIntBytes (l : List Nat) : Option Int :=
  match l with
  | 43 :: rest => (parseNatBytes rest).map Int.ofNat
  | 45 :: rest => (parseNatBytes rest).map (fun n => -(n : Int))
  | _ => (parseNatBytes l).map Int.ofNat

/-- Decimal mantissa of Python `float(s)`: `digits`, `digits.digits`,
`digits.` or `.digits`. -/
def parseDecimal (l : List Nat) : Option ℚ :=
  let intPart := l.takeWhile isDigitByte
  let rest := l.drop intPart.length
  match rest with
  | [] => if intPart = [] then none else some (digitsVal intPart : ℚ)
  | 46 :: rest2 =>
      let frac := rest2.takeWhile isDigitByte
      let rest3 := rest2.drop frac.length
      if rest3 ≠ [] then none
      else if intPart = [] ∧ frac = [] then none
      else some ((digitsVal intPart : ℚ) + (digitsVal frac : ℚ) / ((10 : ℚ) ^ frac.length))
  | _ => none

/-- Python `float(s)` on a stripped byte string: optional sign, decimal
mantissa, optional `e`/`E` exponent. -/
def parseFloatBytes (l : List Nat) : Option ℚ :=
  let signed : ℚ × List Nat :=
    match l with
    | 43 :: r => (1, r)
    | 45 :: r => (-1, r)
    | _ => (1, l)
  match signed.2.findIdx? (fun b => b = 101 || b = 69) with
  | none => (parseDecimal signed.2).map (fun q => signed.1 * q)
  | some i =>
      match parseDecimal (signed.2.take i), parseIntBytes (signed.2.drop (i + 1)) with
      | some m, some e => some (signed.1 * m * (10 : ℚ) ^ e)
      | _, _ => none

/-- A parsed FITS header value (`session.DwarfSession._parse_fits_value`). -/
inductive FitsValue where
  | str (s : List Nat)
  | boolean (b : Bool)
  | int (n : Int)
  | rat (q : ℚ)
deriving DecidableEq, Repr

/-- ASCII uppercase conversion of one byte. -/
def toUpperByte (b : Nat) : Nat := if 97 ≤ b ∧ b ≤ 122 then b - 32 else b

/-- Python `str.strip("'")`: drop all leading and trailing quote bytes. -/
def stripQuotes (l : List Nat) : List Nat :=
  ((l.dropWhile (fun b => b = 39)).reverse.dropWhile (fun b => b = 39)).reverse

/-- `DwarfSession._parse_fits_value`: quoted strings, `T`/`F` booleans,
floats when the text contains `.`/`E`/`e`, integers otherwise, with the raw
text as fallback when numeric parsing fails. -/
def parse_fits_value (value : List Nat) : Option FitsValue :=
  let stripped := stripBytes value
  if stripped = [] then none
  else if stripped.head? = some 39 ∧ stripped.getLast? = some 39 then
    some (FitsValue.str (stripQuotes stripped))
  else
    let upper := stripped.map toUpperByte
    if upper = [84] then some (FitsValue.boolean true)
    else if upper = [70] then some (FitsValue.boolean false)
    else if stripped.any (fun b => b = 46 || b = 69 || b = 101) then
      match parseFloatBytes stripped with
      | some q => some (FitsValue.rat q)
      | none => some (FitsValue.str stripped)
    else
      match parseIntBytes stripped with
      | some n => some (FitsValue.int n)
      | none => some (FitsValue.str stripped)

/-- The header-card loop of `_decode_fits`: read fixed 80-byte cards until
an `END` card, skipping blank keywords, truncating values at an inline `/`
comment and storing parsed values under the stripped keyword.  `remaining`
is the content from the current offset on; the source's bound check
`offset + 80 > len(content)` is `shortCard remaining`.  Returns the header
table and the byte offset just past the `END` card.  `fuel` is consumed one
element per card; seeding it with the whole content makes it inexhaustible
(every card consumes 80 content bytes but only one fuel element). -/
def parseHeaderAux :
    List Nat → List Nat → Nat → List (List Nat × FitsValue) →
    Except String (List (List Nat × FitsValue) × Nat)
  | [], _, _, _ => Except.error "fits_header_incomplete"
  | _ :: fuel, remaining, offset, h =>
      if shortCard remaining then Except.error "fits_header_incomplete"
      else
        let card := remaining.take 80
        let rest := remaining.drop 80
        let offset' := offset + 80
        let keyword := stripBytes (asciiIgnore (card.take 8))
        if keyword = strBytes "END" then Except.ok (h, offset')
        else if keyword = [] then parseHeaderAux fuel rest offset' h
        else
          let value_field := asciiIgnore ((card.drop 10).take 70)
          let value_str := stripBytes (beforeSlash value_field)
          if value_str = [] then parseHeaderAux fuel rest offset' h
          else
            match parse_fits_value value_str with
            | some v => parseHeaderAux fuel rest offset' (setA h keyword v)
            | none => parseHeaderAux fuel rest offset' h

/-- Python `int()` truncation of a rational (toward zero). -/
def ratTrunc (q : ℚ) : Int := if 0 ≤ q then ⌊q⌋ else ⌈q⌉

/-- Python `int(value)` on a stored header value. -/
def fitsToInt : FitsValue → Except String Int
  | FitsValue.int n => Except.ok n
  | FitsValue.rat q => Except.ok (ratTrunc q)
  | FitsValue.boolean b => Except.ok (if b then 1 else 0)
  | FitsValue.str s =>
      match parseIntBytes (stripBytes s) with
      | some n => Except.ok n
      | none => Except.error "fits_int_value"

/-- Python `float(value)` on a stored header value. -/
def fitsToRat : FitsValue → Except String ℚ
  | FitsValue.int n => Except.ok (n : ℚ)
  | FitsValue.rat q => Except.ok q
  | FitsValue.boolean b => Except.ok (if b then 1 else 0)
  | FitsValue.str s =>
      match parseFloatBytes (stripBytes s) with
      | some q => Except.ok q
      | none => Except.error "fits_float_value"

/-- `int(header.get(key, default))`. -/
def getHeaderInt (h : List (List Nat × FitsValue)) (key : List Nat) (dflt : Int) :
    Except String Int :=
  match lookupA h key with
  | none => Except.ok dflt
  | some v => fitsToInt v

/-- `float(header.get(key, default))`. -/
def getHeaderRat (h : List (List Nat × FitsValue)) (key : List Nat) (dflt : ℚ) :
    Except String ℚ :=
  match lookupA h key with
  | none => Except.ok dflt
  | some v => fitsToRat v

/-- Big-endian byte-list value. -/
def beNat (bytes : List Nat) : Nat := bytes.foldl (fun a b => a * 256 + b) 0

/-- Big-endian two's-complement value of `k` bytes. -/
def signedOfBE (k : Nat) (bytes : List Nat) : Int :=
  let v := beNat bytes
  if v < 2 ^ (8 * k - 1) then (v : Int) else (v : Int) - 2 ^ (8 * k)

/-- Exact value of a big-endian IEEE-754 float with `ebits` exponent and
`mbits` mantissa bits.  Non-finite encodings (exponent all ones) have no
rational value and are mapped to an error; the source would propagate a NaN
or infinity through the rescale instead, a path no claim exercises. -/
def decodeIeeeQ (ebits mbits : Nat) (bytes : List Nat) : Except String ℚ :=
  let v := beNat bytes
  let s := v >>> (ebits + mbits)
  let e := (v >>> mbits) &&& (2 ^ ebits - 1)
  let f := v &&& (2 ^ mbits - 1)
  let bias : Int := 2 ^ (ebits - 1) - 1
  if e = 2 ^ ebits - 1 then Except.error "fits_float_nonfinite"
  else
    let mag : ℚ :=
      if e = 0 then (f : ℚ) * (2 : ℚ) ^ ((1 - bias) - (mbits : Int))
      else ((2 ^ mbits + f : Nat) : ℚ) * (2 : ℚ) ^ (((e : Int) - bias) - (mbits : Int))
    Except.ok (if s = 1 then -mag else mag)

/-- Byte width of one array element per `DwarfSession._fits_dtype`; `none`
for an unsupported `BITPIX`. -/
def fitsItemSize : Int → Option Nat
  | 8 => some 1
  | 16 => some 2
  | 32 => some 4
  | 64 => some 8
  | -32 => some 4
  | -64 => some 8
  | _ => none

/-- Decode one array element according to `BITPIX`: `8` unsigned, `16`,
`32`, `64` signed big-endian, `-32`, `-64` big-endian IEEE floats. -/
def decodeFitsItem (bitpix : Int) (bytes : List Nat) : Except String ℚ :=
  if bitpix = 8 then Except.ok (beNat bytes : ℚ)
  else if bitpix = 16 then Except.ok ((signedOfBE 2 bytes : Int) : ℚ)
  else if bitpix = 32 then Except.ok ((signedOfBE 4 bytes : Int) : ℚ)
  else if bitpix = 64 then Except.ok ((signedOfBE 8 bytes : Int) : ℚ)
  else if bitpix = -32 then decodeIeeeQ 8 23 bytes
  else if bitpix = -64 then decodeIeeeQ 11 52 bytes
  else Except.error "fits_bitpix"

/-- `np.frombuffer(..., count=expected)`: read `count` consecutive
big-endian elements of `isize` bytes each. -/
def readFitsItems (bitpix : Int) (isize : Nat) : Nat → List Nat → Except String (List ℚ)
  | 0, _ => Except.ok []
  | n + 1, data =>
      match decodeFitsItem bitpix (data.take isize) with
      | Except.error e => Except.error e
      | Except.ok v =>
          match readFitsItems bitpix isize n (data.drop isize) with
          | Except.error e => Except.error e
          | Except.ok rest => Except.ok (v :: rest)

/-- `array.reshape((height, width))`: split the flat row-major value list
into `h` rows of `w`. -/
def toRows (w : Nat) : Nat → List Nat → List (List Nat)
  | 0, _ => []
  | h + 1, l => l.take w :: toRows w h (l.drop w)

/-- `DwarfSession._decode_fits`: parse header cards until `END`, read
`BITPIX`/`NAXIS`/`NAXIS1`/`NAXIS2`, start the data at the next 2880-byte
block boundary, decode `width * height` big-endian elements, apply the
`BSCALE`/`BZERO` affine rescale, clamp to `[0, 65535]` and truncate to
16-bit integers, row-major `height × width`. -/
def decode_fits (content : List Nat) : Except String (List (List Nat)) :=
  match parseHeaderAux content content 0 [] with
  | Except.error e => Except.error e
  | Except.ok (header, offset) =>
      let header_size := ((offset + 2880 - 1) / 2880) * 2880
      match getHeaderInt header (strBytes "BITPIX") 16 with
      | Except.error e => Except.error e
      | Except.ok bitpix =>
          match getHeaderInt header (strBytes "NAXIS") 0 with
          | Except.error e => Except.error e
          | Except.ok naxis =>
              if naxis < 2 then Except.error "fits_naxis"
              else
                match getHeaderInt header (strBytes "NAXIS1") 0,
                      getHeaderInt header (strBytes "NAXIS2") 0 with
                | Except.error e, _ => Except.error e
                | _, Except.error e => Except.error e
                | Except.ok width, Except.ok height =>
                    if width ≤ 0 ∨ height ≤ 0 then Except.error "fits_dimensions"
                    else
                      match fitsItemSize bitpix with
                      | none => Except.error "fits_bitpix"
                      | some isize =>
                          let expected := width.toNat * height.toNat
                          let data_section := content.drop header_size
                          if shorterThan data_section (expected * isize) then
                            Except.error "fits_data_short"
                          else
                            match readFitsItems bitpix isize expected data_section with
                            | Except.error e => Except.error e
                            | Except.ok values =>
                                match getHeaderRat header (strBytes "BSCALE") 1,
                                      getHeaderRat header (strBytes "BZERO") 0 with
                                | Except.error e, _ => Except.error e
                                | _, Except.error e => Except.error e
                                | Except.ok bscale, Except.ok bzero =>
                                    let pixels := values.map (fun v =>
                                      (⌊max 0 (min (v * bscale + bzero) 65535)⌋).toNat)
                                    Except.ok (toRows width.toNat height.toNat pixels)

/-- 80-byte FITS card for the synthetic test file: keyword padded to eight
columns, `"= "`, the value text, space padding to 80 bytes. -/
def fitsCard (kw v : String) : List Nat :=
  let base := (strBytes kw ++ List.replicate (8 - (strBytes kw).length) 32)
    ++ strBytes "= " ++ strBytes v
  base ++ List.replicate (80 - base.length) 32

/-- The synthetic 2×2 FITS file of the spec's round-trip property:
`BITPIX = 16` big-endian, `BSCALE = 1`, `BZERO = 0`, pixel values
`0, 100, 200, 300`, header padded to one 2880-byte block. -/
def synthFits : List Nat :=
  fitsCard "SIMPLE" "T" ++ fitsCard "BITPIX" "16" ++ fitsCard "NAXIS" "2" ++
  fitsCard "NAXIS1" "2" ++ fitsCard "NAXIS2" "2" ++ fitsCard "BSCALE" "1" ++
  fitsCard "BZERO" "0" ++
  (strBytes "END" ++ List.replicate 77 32) ++
  List.replicate (2880 - 640) 32 ++
  [0, 0, 0, 100, 0, 200, 1, 44]

/-! ## Joystick vector composition (`session.DwarfSession._send_manual_vector`)

The source combines the per-axis rates with `math.hypot`, `math.atan2` and
`math.degrees`; the embedding works over `ℝ` with the exact real-number
counterparts of those functions. -/

/-- `math.hypot(x, y)`. -/
noncomputable def hypot (x y : ℝ) : ℝ := Real.sqrt (x ^ 2 + y ^ 2)

open Classical in
/-- `math.atan2(y, x)`: the polar angle of `(x, y)`, in `(-π, π]`. -/
noncomputable def atan2 (y x : ℝ) : ℝ :=
  if 0 < x then Real.arctan (y / x)
  else if x < 0 then
    (if 0 ≤ y then Real.arctan (y / x) + Real.pi else Real.arctan (y / x) - Real.pi)
  else
    (if 0 < y then Real.pi / 2 else if y < 0 then -(Real.pi / 2) else 0)

/-- `math.degrees`. -/
noncomputable def degrees (r : ℝ) : ℝ := r * (180 / Real.pi)

/-- `session._MAX_JOYSTICK_SPEED`. -/
noncomputable def MAX_JOYSTICK_SPEED : ℝ := 30

/-- `session._MIN_JOYSTICK_SPEED`. -/
noncomputable def MIN_JOYSTICK_SPEED : ℝ := 0.1

/-- The command issued by one `_send_manual_vector` call: nothing, the
joystick-stop command, or a polar drive command. -/
inductive ManualCmd where
  | noCommand
  | stop
  | drive (vector_angle vector_length speed : ℝ)

open Classical in
/-- `DwarfSession._send_manual_vector`: multiply each axis rate by its
direction polarity, combine them into magnitude `hypot`; below the `1e-6`
threshold issue the joystick-stop only when the joystick is marked active
(and nothing otherwise); else issue a drive command with the clamped speed,
normalized vector length and the `atan2` angle in degrees, wrapped into
`[0, 360)`. -/
noncomputable def send_manual_vector (rate0 rate1 pol0 pol1 : ℝ)
    (joystick_active : Bool) : ManualCmd :=
  let rate_x := rate0 * pol0
  let rate_y := rate1 * pol1
  let magnitude := hypot rate_x rate_y
  if magnitude < 1e-6 then
    if joystick_active then ManualCmd.stop else ManualCmd.noCommand
  else
    let speed := max (min magnitude MAX_JOYSTICK_SPEED) MIN_JOYSTICK_SPEED
    let vector_length := if 1e-6 < speed then min 1 (magnitude / speed) else 0
    let angle0 := degrees (atan2 rate_y rate_x)
    let angle := if angle0 < 0 then angle0 + 360 else angle0
    ManualCmd.drive angle vector_length speed

/-! ## Theorems -/

set_option maxRecDepth 4000 in
/-- C3: the BLE frame checksum `calculate_crc16` computes Modbus CRC16
(initial value `0xFFFF`, polynomial `0xA001`): it returns `0xFFFF` for the
empty input and `0x4B37` for the ASCII input `"123456789"`, the canonical
Modbus known-answer vector. -/
theorem calculate_crc16_known_answers :
    calculate_crc16 [] = 0xFFFF ∧
    calculate_crc16 (strBytes "123456789") = 0x4B37 := by
  decide

/-- The first-argmin property of the folded `min(..., key=...)`: the result
splits the scanned list into a strictly-worse prefix, itself, and a
no-better suffix. -/
theorem minByAbsDiff_spec (target : ℚ) (first : ExposureOption)
    (rest : List ExposureOption) :
    ∃ pre post,
      first :: rest = pre ++ minByAbsDiff target first rest :: post ∧
      (∀ o ∈ pre,
        |(minByAbsDiff target first rest).seconds - target| < |o.seconds - target|) ∧
      (∀ o ∈ post,
        |(minByAbsDiff target first rest).seconds - target| ≤ |o.seconds - target|) := by
  induction rest generalizing first with
  | nil =>
      exact ⟨[], [], rfl, by simp, by simp⟩
  | cons o rest ih =>
      have hstep : minByAbsDiff target first (o :: rest) =
          minByAbsDiff target
            (if |o.seconds - target| < |first.seconds - target| then o else first) rest := by
        simp [minByAbsDiff, List.foldl]
      by_cases h : |o.seconds - target| < |first.seconds - target|
      · -- the new element becomes the seed
        obtain ⟨pre, post, heq, hpre, hpost⟩ := ih o
        rw [hstep, if_pos h] at *
        refine ⟨first :: pre, post, by simpa using heq, ?_, hpost⟩
        intro x hx
        rcases List.mem_cons.1 hx with hx | hx
        · subst hx
          -- the result is no worse than `o`, which is strictly better than `first`
          cases pre with
          | nil =>
              have : o = minByAbsDiff target o rest := by
                simpa using congrArg List.head? heq
              rw [← this]
              exact h
          | cons y pre' =>
              have hhead : o = y := by
                simpa using congrArg List.head? heq
              have := hpre y (by simp)
              rw [← hhead] at this
              exact this.trans h
        · exact hpre x hx
      · -- the seed survives
        obtain ⟨pre, post, heq, hpre, hpost⟩ := ih first
        rw [hstep, if_neg h] at *
        cases pre with
        | nil =>
            have hfirst : first = minByAbsDiff target first rest := by
              simpa using congrArg List.head? heq
            have htail : rest = post := by
              simp [← hfirst] at heq
              exact heq
            refine ⟨[], o :: rest, by simp [← hfirst], by simp, ?_⟩
            intro x hx
            rcases List.mem_cons.1 hx with hx | hx
            · subst hx
              rw [← hfirst]
              exact le_of_not_lt h
            · rw [htail] at hx
              exact hpost x hx
        | cons y pre' =>
            have hhead : first = y := by
              simpa using congrArg List.head? heq
            have htail : rest = pre' ++ minByAbsDiff target first rest :: post := by
              simpa [← hhead] using heq
            refine ⟨first :: o :: pre', post, by simpa using htail, ?_, hpost⟩
            intro x hx
            rcases List.mem_cons.1 hx with hx | hx
            · subst hx
              have := hpre y (by simp)
              rw [← hhead] at this
              exact this
            · rcases List.mem_cons.1 hx with hx | hx
              · subst hx
                have hfx := hpre y (by simp)
                rw [← hhead] at hfx
                exact hfx.trans_le (le_of_not_lt h)
              · exact hpre x (by simp [hx])

/-- C4: on a non-empty exposure ladder and a positive requested duration,
`choose_index` returns the index of an option with minimal absolute
duration difference, and that option is the earliest-enumerated one
achieving the minimum (every earlier option is strictly worse), so exact
midpoint ties resolve to the earlier option; being a pure function of the
ladder and the duration, the choice is deterministic. -/
theorem choose_index_spec (options : List ExposureOption) (duration : ℚ)
    (hne : options ≠ []) (hpos : 0 < duration) :
    ∃ pre best post,
      choose_index options duration = some best.index ∧
      options = pre ++ best :: post ∧
      (∀ o ∈ options, |best.seconds - duration| ≤ |o.seconds - duration|) ∧
      (∀ o ∈ pre, |best.seconds - duration| < |o.seconds - duration|) := by
  cases options with
  | nil => exact absurd rfl hne
  | cons first rest =>
      obtain ⟨pre, post, heq, hpre, hpost⟩ := minByAbsDiff_spec duration first rest
      refine ⟨pre, minByAbsDiff duration first rest, post, ?_, heq, ?_, hpre⟩
      · simp [choose_index, not_le.2 hpos]
      · intro o ho
        rw [heq] at ho
        rcases List.mem_append.1 ho with ho | ho
        · exact le_of_lt (hpre o ho)
        · rcases List.mem_cons.1 ho with ho | ho
          · rw [ho]
          · exact hpost o ho

/-- Witness for C4 at the concrete ladder `[(0, 1 s), (1, 3 s)]` and the
midpoint duration `2 s`. -/
theorem choose_index_spec_witness :
    (([⟨0, 1⟩, ⟨1, 3⟩] : List ExposureOption) ≠ [] ∧ (0 : ℚ) < 2) ∧
    (∃ pre best post,
      choose_index [⟨0, 1⟩, ⟨1, 3⟩] 2 = some best.index ∧
      ([⟨0, 1⟩, ⟨1, 3⟩] : List ExposureOption) = pre ++ best :: post ∧
      (∀ o ∈ ([⟨0, 1⟩, ⟨1, 3⟩] : List ExposureOption),
        |best.seconds - 2| ≤ |o.seconds - 2|) ∧
      (∀ o ∈ pre, |best.seconds - 2| < |o.seconds - 2|)) :=
  ⟨⟨by decide, by decide⟩, choose_index_spec [⟨0, 1⟩, ⟨1, 3⟩] 2 (by decide) (by decide)⟩

section AssocLemmas

variable {α β : Type} [DecidableEq α]

/-- A successful lookup exhibits membership. -/
theorem lookupA_some_mem {l : List (α × β)} {k : α} {v : β}
    (h : lookupA l k = some v) : (k, v) ∈ l := by
  induction l with
  | nil => simp [lookupA] at h
  | cons e rest ih =>
      obtain ⟨a, b⟩ := e
      by_cases hk : a = k
      · subst hk
        simp [lookupA] at h
        simp [h]
      · simp [lookupA, hk] at h
        exact List.mem_cons_of_mem _ (ih h)

/-- Lookup sees nothing when every entry for the key fails the filter. -/
theorem lookupA_filter_none {l : List (α × β)} {k : α} {p : α × β → Bool}
    (h : ∀ b, (k, b) ∈ l → p (k, b) = false) :
    lookupA (l.filter p) k = none := by
  induction l with
  | nil => rfl
  | cons e rest ih =>
      obtain ⟨a, b⟩ := e
      have ihr : lookupA (rest.filter p) k = none :=
        ih (fun b' hb' => h b' (List.mem_cons_of_mem _ hb'))
      by_cases hk : a = k
      · subst hk
        have := h b (by simp)
        simp [List.filter, this, ihr]
      · by_cases hp : p (a, b)
        · simp [List.filter, hp, lookupA, hk, ihr]
        · simp [List.filter, hp, ihr]

/-- Lookup is unchanged by a filter that keeps every entry for the key. -/
theorem lookupA_filter_keep {l : List (α × β)} {k : α} {p : α × β → Bool}
    (h : ∀ b, (k, b) ∈ l → p (k, b) = true) :
    lookupA (l.filter p) k = lookupA l k := by
  induction l with
  | nil => rfl
  | cons e rest ih =>
      obtain ⟨a, b⟩ := e
      have ihr : lookupA (rest.filter p) k = lookupA rest k :=
        ih (fun b' hb' => h b' (List.mem_cons_of_mem _ hb'))
      by_cases hk : a = k
      · subst hk
        have := h b (by simp)
        simp [List.filter, this, lookupA, ihr]
      · by_cases hp : p (a, b)
        · simp [List.filter, hp, lookupA, hk, ihr]
        · simp [List.filter, hp, lookupA, hk, ihr]

/-- Erasing a key makes its lookup fail. -/
theorem lookupA_eraseA_self (l : List (α × β)) (k : α) :
    lookupA (eraseA l k) k = none := by
  refine lookupA_filter_none (fun b _ => ?_)
  simp

/-- Erasing another key leaves a lookup unchanged. -/
theorem lookupA_eraseA_ne (l : List (α × β)) {k k' : α} (h : k' ≠ k) :
    lookupA (eraseA l k) k' = lookupA l k' := by
  refine lookupA_filter_keep (fun b _ => ?_)
  simp [h]

/-- Assignment is seen by a lookup of the same key. -/
theorem lookupA_setA_self (l : List (α × β)) (k : α) (v : β) :
    lookupA (setA l k v) k = some v := by
  simp [setA, lookupA]

/-- Assignment is invisible to lookups of other keys. -/
theorem lookupA_setA_ne (l : List (α × β)) {k k' : α} (v : β) (h : k' ≠ k) :
    lookupA (setA l k v) k' = lookupA l k' := by
  simp [setA, lookupA, Ne.symm h, lookupA_eraseA_ne l h]

/-- A key-preserving map transforms lookups pointwise. -/
theorem lookupA_map_keyed (g : α × β → β) (l : List (α × β)) (k : α) :
    lookupA (l.map (fun e => (e.1, g e))) k =
      (lookupA l k).map (fun b => g (k, b)) := by
  induction l with
  | nil => rfl
  | cons e rest ih =>
      obtain ⟨a, b⟩ := e
      by_cases hk : a = k
      · subst hk
        simp [lookupA]
      · simp [lookupA, hk, ih]

/-- Failed lookup means no entry with the key. -/
theorem lookupA_eq_none_iff {l : List (α × β)} {k : α} :
    lookupA l k = none ↔ ∀ b, (k, b) ∉ l := by
  induction l with
  | nil => simp [lookupA]
  | cons e rest ih =>
      obtain ⟨a, b⟩ := e
      by_cases hk : a = k
      · subst hk
        refine iff_of_false (by simp [lookupA]) ?_
        intro h
        exact h b (by simp)
      · simp [lookupA, hk, ih, Ne.symm hk]

/-- Filtering cannot make an absent key present. -/
theorem lookupA_filter_of_none {l : List (α × β)} {k : α} (p : α × β → Bool)
    (h : lookupA l k = none) : lookupA (l.filter p) k = none := by
  rw [lookupA_eq_none_iff] at h ⊢
  intro b hb
  exact h b (List.mem_filter.mp hb).1

end AssocLemmas

/-- Shape of `_pop_pending_request` on a hit. -/
theorem popPendingRequest_some {st : WsState} {k : WsKey} {pr : PendingRequest}
    (h : lookupA st.pending k = some pr) :
    popPendingRequest st k =
      (some pr,
        { st with
          pending := eraseA st.pending k
          pending_aliases := st.pending_aliases.filter
            (fun e => ¬((lookupA pr.alternate_responses e.1).isSome = true ∧
                        lookupA st.pending_aliases e.1 = some k)) }) := by
  simp [popPendingRequest, h]

/-- Shape of `_pop_pending_request` on a miss. -/
theorem popPendingRequest_none {st : WsState} {k : WsKey}
    (h : lookupA st.pending k = none) :
    popPendingRequest st k = (none, st) := by
  simp [popPendingRequest, h]

/-- C1: in a well-formed correlation state, a packet whose key is a pending
request's own key, or one of its registered alias keys (no other request
pending under that key), resolves exactly that request: the request and all
its alias entries leave the tables, every other pending request and alias
entry is untouched, its future is resolved with the packet data, and no
other future changes.  Closing or failing the channel (`_flush_pending`)
clears both correlation tables and fails every pending request's
still-unset future with the connection error. -/
theorem dispatch_resolves_exactly_and_flush_fails_all
    (st : WsState) (k : WsKey) (pr : PendingRequest) (pkt : WsPacket)
    (hwf : WsWf st)
    (hpr : lookupA st.pending k = some pr)
    (hfut : lookupA st.futures pr.future = some FutureState.pending)
    (hkey : (pkt.module_id, pkt.cmd) = k ∨
      ((lookupA pr.alternate_responses (pkt.module_id, pkt.cmd)).isSome = true ∧
        lookupA st.pending (pkt.module_id, pkt.cmd) = none)) :
    lookupA (dispatchPacket st pkt).pending k = none ∧
    (∀ ak, (lookupA pr.alternate_responses ak).isSome = true →
      lookupA (dispatchPacket st pkt).pending_aliases ak = none) ∧
    (∀ k', k' ≠ k →
      lookupA (dispatchPacket st pkt).pending k' = lookupA st.pending k') ∧
    (∀ ak, ¬(lookupA pr.alternate_responses ak).isSome = true →
      lookupA (dispatchPacket st pkt).pending_aliases ak = lookupA st.pending_aliases ak) ∧
    (∃ cls, lookupA (dispatchPacket st pkt).futures pr.future =
      some (FutureState.resolved cls pkt.data)) ∧
    (∀ fid, fid ≠ pr.future →
      lookupA (dispatchPacket st pkt).futures fid = lookupA st.futures fid) ∧
    (∀ err,
      (flushPending st err).pending = [] ∧
      (flushPending st err).pending_aliases = [] ∧
      ∀ e ∈ st.pending, lookupA st.futures e.2.future = some FutureState.pending →
        lookupA (flushPending st err).futures e.2.future =
          some (FutureState.failed err)) := by
  obtain ⟨hwp, hwa, hwfut, hreg⟩ := hwf
  have hmem : (k, pr) ∈ st.pending := lookupA_some_mem hpr
  have hres_self : ∀ c, lookupA (resolveFuture st.futures pr.future c pkt.data) pr.future =
      some (FutureState.resolved c pkt.data) := by
    intro c
    simp [resolveFuture, hfut, lookupA_setA_self]
  have hres_ne : ∀ c fid, fid ≠ pr.future →
      lookupA (resolveFuture st.futures pr.future c pkt.data) fid =
        lookupA st.futures fid := by
    intro c fid hne
    simp [resolveFuture, hfut, lookupA_setA_ne _ _ hne]
  have hflush : ∀ err,
      (flushPending st err).pending = [] ∧
      (flushPending st err).pending_aliases = [] ∧
      ∀ e ∈ st.pending, lookupA st.futures e.2.future = some FutureState.pending →
        lookupA (flushPending st err).futures e.2.future =
          some (FutureState.failed err) := by
    intro err
    refine ⟨rfl, rfl, ?_⟩
    intro e he hef
    have hany : st.pending.any (fun p => p.2.future = e.2.future) = true := by
      simp only [List.any_eq_true]
      exact ⟨e, he, by simp⟩
    show lookupA (st.futures.map _) e.2.future = _
    rw [lookupA_map_keyed]
    rw [hef]
    simp [hany]
  rcases hkey with hdir | ⟨hsome, hnone⟩
  · -- direct hit on the request's own key
    subst hdir
    have hd : dispatchPacket st pkt =
        { pending := eraseA st.pending (pkt.module_id, pkt.cmd)
          pending_aliases := st.pending_aliases.filter
            (fun e => ¬((lookupA pr.alternate_responses e.1).isSome = true ∧
                        lookupA st.pending_aliases e.1 = some (pkt.module_id, pkt.cmd)))
          futures := resolveFuture st.futures pr.future pr.response_cls pkt.data } := by
      simp only [dispatchPacket, popPendingRequest_some hpr]
    refine ⟨?_, ?_, ?_, ?_, ?_, ?_, hflush⟩
    · rw [hd]
      exact lookupA_eraseA_self _ _
    · intro ak hak
      obtain ⟨cls0, hcls0⟩ := Option.isSome_iff_exists.mp hak
      have hrak : lookupA st.pending_aliases ak = some (pkt.module_id, pkt.cmd) :=
        hreg _ hmem (ak, cls0) (lookupA_some_mem hcls0)
      rw [hd]
      refine lookupA_filter_none (fun b _ => ?_)
      simp [hcls0, hrak]
    · intro k' hk'
      rw [hd]
      exact lookupA_eraseA_ne _ hk'
    · intro ak hak
      rw [hd]
      refine lookupA_filter_keep (fun b _ => ?_)
      simp [hak]
    · rw [hd]
      exact ⟨pr.response_cls, hres_self _⟩
    · intro fid hfid
      rw [hd]
      exact hres_ne _ _ hfid
  · -- hit on a registered alias key
    obtain ⟨cls0, hcls0⟩ := Option.isSome_iff_exists.mp hsome
    have halias0 : lookupA st.pending_aliases (pkt.module_id, pkt.cmd) = some k :=
      hreg _ hmem (_, cls0) (lookupA_some_mem hcls0)
    have hne_pk : ∀ b : PendingRequest, ¬((pkt.module_id, pkt.cmd), b) ∈ st.pending := by
      rw [← lookupA_eq_none_iff]
      exact hnone
    have hd : dispatchPacket st pkt =
        { pending := eraseA st.pending k
          pending_aliases := (eraseA st.pending_aliases (pkt.module_id, pkt.cmd)).filter
            (fun e => ¬((lookupA pr.alternate_responses e.1).isSome = true ∧
              lookupA (eraseA st.pending_aliases (pkt.module_id, pkt.cmd)) e.1 = some k))
          futures := resolveFuture st.futures pr.future cls0 pkt.data } := by
      have hgetd : (lookupA pr.alternate_responses (pkt.module_id, pkt.cmd)).getD
          pr.response_cls = cls0 := by
        rw [hcls0]
        rfl
      have hpr2 : lookupA (WsState.mk st.pending
          (eraseA st.pending_aliases (pkt.module_id, pkt.cmd)) st.futures).pending k =
          some pr := hpr
      simp only [dispatchPacket, popPendingRequest_none hnone, halias0,
        popPendingRequest_some hpr2, hgetd]
    refine ⟨?_, ?_, ?_, ?_, ?_, ?_, hflush⟩
    · rw [hd]
      exact lookupA_eraseA_self _ _
    · intro ak hak
      obtain ⟨cls1, hcls1⟩ := Option.isSome_iff_exists.mp hak
      rw [hd]
      by_cases hakp : ak = (pkt.module_id, pkt.cmd)
      · subst hakp
        exact lookupA_filter_of_none _ (lookupA_eraseA_self _ _)
      · have hrak : lookupA st.pending_aliases ak = some k :=
          hreg _ hmem (ak, cls1) (lookupA_some_mem hcls1)
        have hrak' : lookupA (eraseA st.pending_aliases (pkt.module_id, pkt.cmd)) ak =
            some k := by
          rw [lookupA_eraseA_ne _ hakp]
          exact hrak
        refine lookupA_filter_none (fun b _ => ?_)
        simp [hcls1, hrak']
    · intro k' hk'
      rw [hd]
      exact lookupA_eraseA_ne _ hk'
    · intro ak hak
      have hakp : ak ≠ (pkt.module_id, pkt.cmd) := by
        intro h
        rw [h] at hak
        exact hak hsome
      rw [hd]
      have : lookupA ((eraseA st.pending_aliases (pkt.module_id, pkt.cmd)).filter
          (fun e => ¬((lookupA pr.alternate_responses e.1).isSome = true ∧
            lookupA (eraseA st.pending_aliases (pkt.module_id, pkt.cmd)) e.1 = some k))) ak =
          lookupA (eraseA st.pending_aliases (pkt.module_id, pkt.cmd)) ak :=
        lookupA_filter_keep (fun b _ => by simp [hak])
      rw [this]
      exact lookupA_eraseA_ne _ hakp
    · rw [hd]
      exact ⟨cls0, hres_self _⟩
    · intro fid hfid
      rw [hd]
      exact hres_ne _ _ hfid

/-- A concrete correlation state: one request pending under `(1, 2)` with
future `0` and the single alias key `(1, 9)`. -/
def wsWitnessState : WsState :=
  WsState.mk [((1, 2), ⟨0, 5, [((1, 9), 6)]⟩)] [((1, 9), (1, 2))] [(0, FutureState.pending)]

/-- Witness for C1: dispatching a packet on the alias key `(1, 9)` of the
request pending under `(1, 2)` removes that request, clears its alias and
resolves its future with the packet data. -/
theorem dispatch_resolves_exactly_and_flush_fails_all_witness :
    (WsWf wsWitnessState ∧
      lookupA wsWitnessState.pending (1, 2) = some ⟨0, 5, [((1, 9), 6)]⟩ ∧
      lookupA wsWitnessState.futures 0 = some FutureState.pending) ∧
    lookupA (dispatchPacket wsWitnessState ⟨1, 9, 42⟩).pending (1, 2) = none ∧
    lookupA (dispatchPacket wsWitnessState ⟨1, 9, 42⟩).pending_aliases (1, 9) = none ∧
    (∃ cls, lookupA (dispatchPacket wsWitnessState ⟨1, 9, 42⟩).futures 0 =
      some (FutureState.resolved cls 42)) := by
  have h := dispatch_resolves_exactly_and_flush_fails_all wsWitnessState (1, 2)
    ⟨0, 5, [((1, 9), 6)]⟩ ⟨1, 9, 42⟩ (by decide) (by decide) (by decide)
    (Or.inr ⟨by decide, by decide⟩)
  exact ⟨⟨by decide, by decide, by decide⟩, h.1, h.2.1 (1, 9) (by decide), h.2.2.2.2.1⟩

/-- C2: while a request is pending under a `(module_id, command_id)` key,
a second `send_request` with the same key fails (raises before touching
any state) and leaves the correlation state — in particular the existing
pending request — exactly as it was. -/
theorem send_request_duplicate_key_rejected (st : WsState) (m c : Nat) (pr : PendingRequest)
    (cls : Nat) (alts : List (WsKey × Nat)) (fid : Nat)
    (hpending : lookupA st.pending (m, c) = some pr) :
    send_request st m c cls alts fid = (st, false) ∧
    lookupA (send_request st m c cls alts fid).1.pending (m, c) = some pr := by
  have hsome : (lookupA st.pending (m, c)).isSome := by rw [hpending]; rfl
  constructor
  · simp [send_request, hsome]
  · simp [send_request, hsome, hpending]

/-- Witness for C2: a one-request state rejects a duplicate send. -/
theorem send_request_duplicate_key_rejected_witness :
    lookupA (WsState.mk [((1, 2), ⟨0, 5, []⟩)] [] [(0, FutureState.pending)]).pending (1, 2) =
      some ⟨0, 5, []⟩ ∧
    send_request (WsState.mk [((1, 2), ⟨0, 5, []⟩)] [] [(0, FutureState.pending)]) 1 2 7 [] 1 =
      (WsState.mk [((1, 2), ⟨0, 5, []⟩)] [] [(0, FutureState.pending)], false) :=
  ⟨by decide,
    (send_request_duplicate_key_rejected
      (WsState.mk [((1, 2), ⟨0, 5, []⟩)] [] [(0, FutureState.pending)])
      1 2 ⟨0, 5, []⟩ 7 [] 1 (by decide)).1⟩

/-- C8: `acquire` on a failing connection attempt rolls the incremented
reference count back to its pre-call value for every capability (reference
counts are never negative, so `max(0, n + 1 - 1) = n`), and the error
propagates; on a successful attempt the device's count is incremented. -/
theorem acquire_rollback (refs : Capability → Int) (device : Capability)
    (hnn : 0 ≤ refs device) :
    ((∀ c, (acquire refs device false).1 c = refs c) ∧
      (acquire refs device false).2 = false) ∧
    ((acquire refs device true).1 device = refs device + 1 ∧
      (acquire refs device true).2 = true) := by
  refine ⟨⟨fun c => ?_, rfl⟩, by simp [acquire], rfl⟩
  by_cases h : c = device
  · subst h
    simp [acquire]
    omega
  · simp [acquire, h]

/-- Witness for C8 at a camera count of `2`. -/
theorem acquire_rollback_witness :
    (0 : Int) ≤ 2 ∧
    ((∀ c, (acquire (fun _ => 2) Capability.camera false).1 c = 2) ∧
      (acquire (fun _ => 2) Capability.camera false).2 = false) ∧
    ((acquire (fun _ => 2) Capability.camera true).1 Capability.camera = 2 + 1 ∧
      (acquire (fun _ => 2) Capability.camera true).2 = true) :=
  ⟨by decide, acquire_rollback (fun _ => 2) Capability.camera (by decide)⟩

/-- The response loop only reports success with a non-empty IP different
from the AP default, given that any carried-over `sta_ip` is non-empty. -/
theorem staLoop_ok_nondefault :
    ∀ (trace : List BleMsg) (sta_ip : Option String),
      (∀ s, sta_ip = some s → s ≠ "") →
      ∀ ip, (staLoop trace sta_ip).1 = StaOutcome.ok ip →
        ip ≠ "" ∧ ip ≠ "192.168.88.1" := by
  intro trace
  induction trace with
  | nil =>
      intro sta_ip _ ip h
      simp [staLoop] at h
  | cons msg rest ih =>
      intro sta_ip hinv ip h
      cases msg with
      | other c => exact ih sta_ip hinv ip h
      | recvError c => simp [staLoop] at h
      | sta s =>
          by_cases hcode : s.code ≠ 0
          · simp [staLoop, hcode] at h
          · have hinv' : ∀ t, (if s.ip ≠ "" then some s.ip else sta_ip) = some t → t ≠ "" := by
              intro t ht
              by_cases hip : s.ip ≠ ""
              · rw [if_pos hip] at ht
                rw [← Option.some.inj ht]
                exact hip
              · rw [if_neg hip] at ht
                exact hinv t ht
            by_cases hbreak :
                ((if s.ip ≠ "" then some s.ip else sta_ip).getD "") ≠ "" ∧
                ((if s.ip ≠ "" then some s.ip else sta_ip).getD "") ≠ "192.168.88.1"
            · simp only [staLoop, if_neg hcode, if_pos hbreak] at h
              injection h with h'
              rw [← h']
              exact hbreak
            · simp only [staLoop, if_neg hcode, if_neg hbreak] at h
              exact ih _ hinv' ip h
      | config c =>
          by_cases hcode : c.code ≠ 0
          · simp [staLoop, hcode] at h
          · by_cases hcond : c.state = 2 ∧ c.wifi_mode = 2 ∧ c.ip ≠ "" ∧ c.ip ≠ "192.168.88.1"
            · simp only [staLoop, if_neg hcode, if_pos hcond] at h
              have hip : ip = c.ip := by
                cases h
                rfl
              rw [hip]
              exact ⟨hcond.2.2.1, hcond.2.2.2⟩
            · simp only [staLoop, if_neg hcode, if_neg hcond] at h
              exact ih sta_ip hinv ip h

/-- C9 counterexample: an initial config response with the desired SSID
(`"net"`) and the non-default IP `10.0.0.5` but STA state `1` (not
connected).  The claim as stated predicts a short-circuit success with no
STA-configure write; the code writes the STA-configure command (and, with
no further notifications, times out rather than succeeding). -/
theorem configure_sta_counterexample :
    (configure_sta ⟨0, 1, 2, "net", "10.0.0.5"⟩ "net" []).2 = [BleWrite.staCmd 1] ∧
    (configure_sta ⟨0, 1, 2, "net", "10.0.0.5"⟩ "net" []).1 ≠ StaOutcome.ok "10.0.0.5" := by
  decide

/-- C9 (amended): the handshake short-circuits as success with the reported
IP and no write exactly when the initial config response shows a connected
STA (`state = 2`), STA wifi mode (`wifi_mode = 2`), the desired SSID and a
non-empty IP other than the AP default `192.168.88.1`; otherwise the
STA-configure command is written first, and the loop only ever reports
success with a non-empty, non-default IP (an exhausted trace is the
deadline elapsing, reported as a timeout). -/
theorem configure_sta_spec (config : ResGetconfig) (ssid : String) (trace : List BleMsg) :
    (config.state = 2 ∧ config.wifi_mode = 2 ∧ config.ssid = ssid ∧
        config.ip ≠ "" ∧ config.ip ≠ "192.168.88.1" →
      configure_sta config ssid trace = (StaOutcome.ok config.ip, [])) ∧
    (¬(config.state = 2 ∧ config.wifi_mode = 2 ∧ config.ssid = ssid ∧
        config.ip ≠ "" ∧ config.ip ≠ "192.168.88.1") →
      ∃ ws, (configure_sta config ssid trace).2 =
        BleWrite.staCmd (if config.state ≠ 2 then 1 else 0) :: ws) ∧
    (∀ ip, (configure_sta config ssid trace).1 = StaOutcome.ok ip →
      ip ≠ "" ∧ ip ≠ "192.168.88.1") ∧
    (¬(config.state = 2 ∧ config.wifi_mode = 2 ∧ config.ssid = ssid ∧
        config.ip ≠ "" ∧ config.ip ≠ "192.168.88.1") →
      (configure_sta config ssid []).1 = StaOutcome.timeout) := by
  refine ⟨?_, ?_, ?_, ?_⟩
  · intro hcond
    simp [configure_sta, hcond]
  · intro hcond
    refine ⟨(staLoop trace none).2, ?_⟩
    simp [configure_sta, hcond]
  · intro ip hok
    by_cases hcond : config.state = 2 ∧ config.wifi_mode = 2 ∧ config.ssid = ssid ∧
        config.ip ≠ "" ∧ config.ip ≠ "192.168.88.1"
    · simp only [configure_sta, if_pos hcond] at hok
      have hip : ip = config.ip := by
        cases hok
        rfl
      rw [hip]
      exact ⟨hcond.2.2.2.1, hcond.2.2.2.2⟩
    · simp only [configure_sta, if_neg hcond] at hok
      exact staLoop_ok_nondefault trace none (by intro s hs; cases hs) ip hok
  · intro hcond
    simp [configure_sta, hcond, staLoop]

/-- Witness for C9 at a connected-STA config (short-circuit branch) and at
the counterexample config (STA-write branch). -/
theorem configure_sta_spec_witness :
    ((⟨0, 2, 2, "net", "10.0.0.7"⟩ : ResGetconfig).state = 2 ∧
      (⟨0, 2, 2, "net", "10.0.0.7"⟩ : ResGetconfig).wifi_mode = 2 ∧
      (⟨0, 2, 2, "net", "10.0.0.7"⟩ : ResGetconfig).ssid = "net" ∧
      (⟨0, 2, 2, "net", "10.0.0.7"⟩ : ResGetconfig).ip ≠ "" ∧
      (⟨0, 2, 2, "net", "10.0.0.7"⟩ : ResGetconfig).ip ≠ "192.168.88.1") ∧
    configure_sta ⟨0, 2, 2, "net", "10.0.0.7"⟩ "net" [] =
      (StaOutcome.ok "10.0.0.7", []) ∧
    (∃ ws, (configure_sta ⟨0, 1, 2, "net", "10.0.0.5"⟩ "net"
        [BleMsg.sta ⟨0, "10.0.0.9"⟩]).2 =
      BleWrite.staCmd (if (1 : Int) ≠ 2 then 1 else 0) :: ws) :=
  ⟨by decide,
    (configure_sta_spec ⟨0, 2, 2, "net", "10.0.0.7"⟩ "net" []).1 (by decide),
    (configure_sta_spec ⟨0, 1, 2, "net", "10.0.0.5"⟩ "net"
      [BleMsg.sta ⟨0, "10.0.0.9"⟩]).2.1 (by decide)⟩

/-- Clamped positions are never negative. -/
theorem clampPos_nonneg (p : Int) : 0 ≤ clampPos p := le_max_left 0 _

/-- Clamped positions never exceed the 20000-step range. -/
theorem clampPos_le (p : Int) : clampPos p ≤ 20000 :=
  max_le (by norm_num) (min_le_right p 20000)

/-- Clamping is the identity on in-range positions. -/
theorem clampPos_eq_self {p : Int} (h0 : 0 ≤ p) (h1 : p ≤ 20000) : clampPos p = p := by
  rw [clampPos, min_eq_left h1, max_eq_right h0]

/-- With every per-step wait timing out (empty trace), the single-step
branch walks the estimated `±1` fallbacks from the start position straight
to the target. -/
theorem singleStepLoop_timeouts :
    ∀ (n : Nat) (target dir pos : Int), 0 ≤ pos → pos ≤ 20000 →
      0 ≤ target → target ≤ 20000 →
      ((dir = 1 ∧ target - pos = (n : Int)) ∨ (dir = -1 ∧ pos - target = (n : Int))) →
      singleStepLoop target dir n pos [] = target := by
  intro n
  induction n with
  | zero =>
      intro target dir pos _ _ _ _ hd
      have : target = pos := by rcases hd with ⟨_, h⟩ | ⟨_, h⟩ <;> omega
      simp [singleStepLoop, this]
  | succ m ih =>
      intro target dir pos h0 h1 h2 h3 hd
      rcases hd with ⟨hdir, hdist⟩ | ⟨hdir, hdist⟩
      · subst hdir
        have hc : clampPos (pos + 1) = pos + 1 := clampPos_eq_self (by omega) (by omega)
        have hstep : singleStepLoop target 1 (m + 1) pos [] =
            (if (1 : Int) > 0 ∧ target ≤ pos + 1 ∨ (1 : Int) < 0 ∧ pos + 1 ≤ target
             then pos + 1
             else singleStepLoop target 1 m (pos + 1) []) := by
          simp only [singleStepLoop, List.head?, Option.getD, List.tail_nil, hc]
        by_cases hreach : target ≤ pos + 1
        · rw [hstep, if_pos (Or.inl ⟨by norm_num, hreach⟩)]
          omega
        · rw [hstep, if_neg]
          · exact ih target 1 (pos + 1) (by omega) (by omega) h2 h3
              (Or.inl ⟨rfl, by omega⟩)
          · rintro (⟨_, hx⟩ | ⟨hx, _⟩)
            · exact hreach hx
            · exact absurd hx (by norm_num)
      · subst hdir
        have hc : clampPos (pos + -1) = pos + -1 := clampPos_eq_self (by omega) (by omega)
        have hstep : singleStepLoop target (-1) (m + 1) pos [] =
            (if (-1 : Int) > 0 ∧ target ≤ pos + -1 ∨ (-1 : Int) < 0 ∧ pos + -1 ≤ target
             then pos + -1
             else singleStepLoop target (-1) m (pos + -1) []) := by
          simp only [singleStepLoop, List.head?, Option.getD, List.tail_nil, hc]
        by_cases hreach : pos + -1 ≤ target
        · rw [hstep, if_pos (Or.inr ⟨by norm_num, hreach⟩)]
          omega
        · rw [hstep, if_neg]
          · exact ih target (-1) (pos + -1) (by omega) (by omega) h2 h3
              (Or.inr ⟨rfl, by omega⟩)
          · rintro (⟨hx, _⟩ | ⟨_, hx⟩)
            · exact absurd hx (by norm_num)
            · exact hreach hx

/-- C7: `focuser_move` clamps the resolved target (`start + delta`, or the
absolute target when given) into `[0, 20000]`, and when no focus
notification is ever observed (the empty event trace: every wait times
out), the final position equals that clamped target — via the forced
fallback assignment in the continuous branch and via the estimated
single-step fallbacks in the short branch. -/
theorem focuser_move_no_notification (startPos delta0 : Int) (target0 : Option Int)
    (h0 : 0 ≤ startPos) (h1 : startPos ≤ 20000) :
    focuser_move false startPos delta0 target0 [] =
      clampPos (match target0 with | none => startPos + delta0 | some t => t) := by
  set desired := (match target0 with | none => startPos + delta0 | some t => t) with hdes
  have ht0 : 0 ≤ clampPos desired := clampPos_nonneg _
  have ht1 : clampPos desired ≤ 20000 := clampPos_le _
  by_cases hz : clampPos desired - startPos = 0
  · simp only [focuser_move, ← hdes, if_pos hz]
    omega
  · simp only [focuser_move, ← hdes, if_neg hz, Bool.false_eq_true, if_false]
    by_cases hs : (clampPos desired - startPos).natAbs ≤ 10
    · rw [if_pos hs]
      rw [singleStepLoop_timeouts _ _ _ _ h0 h1 ht0 ht1 ?_]
      · exact clampPos_eq_self ht0 ht1
      · by_cases hpos : clampPos desired - startPos > 0
        · exact Or.inl ⟨if_pos hpos, by omega⟩
        · exact Or.inr ⟨if_neg hpos, by omega⟩
    · rw [if_neg hs]
      simp only [continuLoop, List.head?]
      rw [if_neg (by simp)]
      exact clampPos_eq_self ht0 ht1

/-- Witness for C7: the spec's `move(600)` from position `0` with no
notifications, and the repository test's `move(20, target := 120)` from
position `100`. -/
theorem focuser_move_no_notification_witness :
    ((0 : Int) ≤ 0 ∧ (0 : Int) ≤ 20000 ∧ (0 : Int) ≤ 100 ∧ (100 : Int) ≤ 20000) ∧
    focuser_move false 0 600 none [] = clampPos 600 ∧
    focuser_move false 100 20 (some 120) [] = clampPos 120 :=
  ⟨⟨by decide, by decide, by decide, by decide⟩,
    focuser_move_no_notification 0 600 none (by decide) (by decide),
    focuser_move_no_notification 100 20 (some 120) (by decide) (by decide)⟩

/-- The simulated stepping loop stays in range once the position is. -/
theorem simLoop_bounds (dir : Int) :
    ∀ (n : Nat) (pos : Int), 0 ≤ pos → pos ≤ 20000 →
      0 ≤ simLoop dir n pos ∧ simLoop dir n pos ≤ 20000 := by
  intro n
  induction n with
  | zero => intro pos h0 h1; exact ⟨h0, h1⟩
  | succ m ih =>
      intro pos _ _
      exact ih _ (clampPos_nonneg _) (clampPos_le _)

/-- C10: every write of the focuser position lands in `[0, 20000]`: a
device focus notification is clamped before being stored; `focuser_move`
ends with an in-range position for every simulation flag, start position,
delta, absolute target and notification trace; and the simulated stepping
loop keeps the position in range for every non-zero delta, whatever the
starting value. -/
theorem focuser_position_invariant :
    (∀ v : Int, 0 ≤ handle_focus_notification v ∧ handle_focus_notification v ≤ 20000) ∧
    (∀ (sim : Bool) (startPos delta0 : Int) (target0 : Option Int)
        (trace : List FocusEvent),
      0 ≤ focuser_move sim startPos delta0 target0 trace ∧
      focuser_move sim startPos delta0 target0 trace ≤ 20000) ∧
    (∀ (pos delta : Int), delta ≠ 0 →
      0 ≤ simulate_focus_move pos delta ∧ simulate_focus_move pos delta ≤ 20000) := by
  refine ⟨fun v => ⟨clampPos_nonneg _, clampPos_le _⟩, ?_, ?_⟩
  · intro sim startPos delta0 target0 trace
    set desired := (match target0 with | none => startPos + delta0 | some t => t) with hdes
    by_cases hz : clampPos desired - startPos = 0
    · simp only [focuser_move, ← hdes, if_pos hz]
      have h0 := clampPos_nonneg desired
      have h1 := clampPos_le desired
      omega
    · simp only [focuser_move, ← hdes, if_neg hz]
      cases sim with
      | true =>
          simp only [if_true]
          exact ⟨clampPos_nonneg _, clampPos_le _⟩
      | false =>
          simp only [Bool.false_eq_true, if_false]
          by_cases hs : (clampPos desired - startPos).natAbs ≤ 10
          · rw [if_pos hs]
            exact ⟨clampPos_nonneg _, clampPos_le _⟩
          · rw [if_neg hs]
            exact ⟨clampPos_nonneg _, clampPos_le _⟩
  · intro pos delta hne
    have hnz : delta.natAbs ≠ 0 := Int.natAbs_ne_zero.mpr hne
    cases hn : delta.natAbs with
    | zero => exact absurd hn hnz
    | succ m =>
        simp only [simulate_focus_move, hn, simLoop]
        exact simLoop_bounds _ m _ (clampPos_nonneg _) (clampPos_le _)

/-- Witness for C10's simulated-move conjunct at position `25000` (out of
range) and delta `-3`. -/
theorem focuser_position_invariant_witness :
    ((-3 : Int) ≠ 0) ∧
    (0 ≤ simulate_focus_move 25000 (-3) ∧ simulate_focus_move 25000 (-3) ≤ 20000) :=
  ⟨by decide, focuser_position_invariant.2.2 25000 (-3) (by decide)⟩

/-- The header table parsed from `synthFits` (later assignments sit in
front, dict-style). -/
def synthHeader : List (List Nat × FitsValue) :=
  [(strBytes "BZERO", FitsValue.int 0), (strBytes "BSCALE", FitsValue.int 1),
   (strBytes "NAXIS2", FitsValue.int 2), (strBytes "NAXIS1", FitsValue.int 2),
   (strBytes "NAXIS", FitsValue.int 2), (strBytes "BITPIX", FitsValue.int 16),
   (strBytes "SIMPLE", FitsValue.boolean true)]

set_option maxRecDepth 4000 in
/-- C5: the FITS decoder — 80-byte cards up to `END`, `BITPIX` dispatch,
`NAXIS1`/`NAXIS2` dimensions, data at the next 2880-byte block boundary,
`BSCALE`/`BZERO` rescale and 16-bit clamp — decodes the synthetic 2×2
`BITPIX = 16` big-endian file with `BSCALE = 1`, `BZERO = 0` to exactly its
pixel matrix `[[0, 100], [200, 300]]`. -/
theorem decode_fits_synthetic :
    decode_fits synthFits = Except.ok [[0, 100], [200, 300]] := by
  have hH : parseHeaderAux synthFits synthFits 0 [] = Except.ok (synthHeader, 640) := by
    decide
  have hB : getHeaderInt synthHeader (strBytes "BITPIX") 16 = Except.ok 16 := by decide
  have hN : getHeaderInt synthHeader (strBytes "NAXIS") 0 = Except.ok 2 := by decide
  have hN1 : getHeaderInt synthHeader (strBytes "NAXIS1") 0 = Except.ok 2 := by decide
  have hN2 : getHeaderInt synthHeader (strBytes "NAXIS2") 0 = Except.ok 2 := by decide
  have hSize : fitsItemSize 16 = some 2 := by decide
  have hHS : ((640 + 2880 - 1) / 2880) * 2880 = 2880 := by norm_num
  have hShort : shorterThan (List.drop 2880 synthFits) (Int.toNat 2 * Int.toNat 2 * 2) =
      false := by decide
  have hItems : readFitsItems 16 2 (Int.toNat 2 * Int.toNat 2) (List.drop 2880 synthFits) =
      Except.ok [((0 : Int) : ℚ), ((100 : Int) : ℚ), ((200 : Int) : ℚ),
        ((300 : Int) : ℚ)] := by decide
  have hBS : getHeaderRat synthHeader (strBytes "BSCALE") 1 = Except.ok ((1 : Int) : ℚ) := by
    decide
  have hBZ : getHeaderRat synthHeader (strBytes "BZERO") 0 = Except.ok ((0 : Int) : ℚ) := by
    decide
  have hpix : ∀ n : Int, 0 ≤ n → n ≤ 65535 →
      (⌊max 0 (min (((n : Int) : ℚ) * ((1 : Int) : ℚ) + ((0 : Int) : ℚ)) 65535)⌋).toNat =
        n.toNat := by
    intro n h0 h1
    have hval : ((n : Int) : ℚ) * ((1 : Int) : ℚ) + ((0 : Int) : ℚ) = ((n : Int) : ℚ) := by
      push_cast
      ring
    rw [hval, min_eq_left (by exact_mod_cast h1), max_eq_right (by exact_mod_cast h0),
      Int.floor_intCast]
  simp only [decode_fits, hH, hB, hN, hN1, hN2, hSize, hHS, hShort, hItems, hBS, hBZ]
  norm_num [toRows, hpix, Int.toNat_ofNat]
  all_goals decide

/-- `atan2` ranges over `(-π, π]`. -/
theorem atan2_mem_Ioc (y x : ℝ) : -Real.pi < atan2 y x ∧ atan2 y x ≤ Real.pi := by
  have hpi := Real.pi_pos
  have h1 := Real.arctan_lt_pi_div_two (y / x)
  have h2 := Real.neg_pi_div_two_lt_arctan (y / x)
  unfold atan2
  split_ifs with hx hx2 hy hy1 hy2
  · exact ⟨by linarith, by linarith⟩
  · have hdiv : y / x ≤ 0 := div_nonpos_iff.mpr (Or.inl ⟨hy, hx2.le⟩)
    have harc : Real.arctan (y / x) ≤ 0 := by
      have := Real.arctan_strictMono.monotone hdiv
      rwa [Real.arctan_zero] at this
    exact ⟨by linarith, by linarith⟩
  · have hdiv : 0 < y / x := div_pos_iff.mpr (Or.inr ⟨lt_of_not_le hy, hx2⟩)
    have harc : 0 < Real.arctan (y / x) := by
      have := Real.arctan_strictMono hdiv
      rwa [Real.arctan_zero] at this
    exact ⟨by linarith, by linarith⟩
  · exact ⟨by linarith, by linarith⟩
  · exact ⟨by linarith, by linarith⟩
  · exact ⟨by linarith, by linarith⟩

/-- C6 counterexample: with both axis rates zero and the joystick not
currently active, `_send_manual_vector` issues no command at all — in
particular no joystick-stop command, contrary to the claim that a zero
combined magnitude always issues a stop. -/
theorem send_manual_vector_counterexample :
    send_manual_vector 0 0 1 1 false = ManualCmd.noCommand ∧
    send_manual_vector 0 0 1 1 false ≠ ManualCmd.stop := by
  have hm : hypot ((0 : ℝ) * 1) ((0 : ℝ) * 1) = 0 := by norm_num [hypot]
  have h0 : hypot ((0 : ℝ) * 1) ((0 : ℝ) * 1) < 1e-6 := by
    rw [hm]
    norm_num
  have heq : send_manual_vector 0 0 1 1 false = ManualCmd.noCommand := by
    simp only [send_manual_vector, if_pos h0]
    rfl
  refine ⟨heq, fun h => ?_⟩
  rw [heq] at h
  exact ManualCmd.noConfusion h

/-- C6 (amended): for all axis rates and polarities, a combined magnitude
below the `1e-6` threshold issues the joystick-stop when the joystick is
marked active and no command otherwise — never a zero-length drive
command; a magnitude at or above the threshold issues a drive command with
speed clamped into `[0.1, 30]`, vector length `min 1 (magnitude / speed)`,
and the `atan2` angle in degrees normalized into `[0, 360)`; at rates
`(5, 5)` with unit polarities the drive command has angle `45`, length `1`
and speed `√50 ≈ 7.07`. -/
theorem send_manual_vector_spec (rate0 rate1 pol0 pol1 : ℝ) (active : Bool) :
    (hypot (rate0 * pol0) (rate1 * pol1) < 1e-6 →
      send_manual_vector rate0 rate1 pol0 pol1 active =
        (if active then ManualCmd.stop else ManualCmd.noCommand)) ∧
    (¬ hypot (rate0 * pol0) (rate1 * pol1) < 1e-6 →
      ∃ angle,
        send_manual_vector rate0 rate1 pol0 pol1 active =
          ManualCmd.drive angle
            (min 1 (hypot (rate0 * pol0) (rate1 * pol1) /
              max (min (hypot (rate0 * pol0) (rate1 * pol1)) MAX_JOYSTICK_SPEED)
                MIN_JOYSTICK_SPEED))
            (max (min (hypot (rate0 * pol0) (rate1 * pol1)) MAX_JOYSTICK_SPEED)
              MIN_JOYSTICK_SPEED) ∧
        angle = (if degrees (atan2 (rate1 * pol1) (rate0 * pol0)) < 0
                 then degrees (atan2 (rate1 * pol1) (rate0 * pol0)) + 360
                 else degrees (atan2 (rate1 * pol1) (rate0 * pol0))) ∧
        0 ≤ angle ∧ angle < 360) ∧
    (send_manual_vector 5 5 1 1 active = ManualCmd.drive 45 1 (Real.sqrt 50) ∧
      |Real.sqrt 50 - 7.07| < 0.01) := by
  have h7 : (7.07 : ℝ) < Real.sqrt 50 := (Real.lt_sqrt (by norm_num)).mpr (by norm_num)
  have h708 : Real.sqrt 50 < 7.08 := (Real.sqrt_lt' (by norm_num)).mpr (by norm_num)
  refine ⟨?_, ?_, ?_, ?_⟩
  · intro h
    simp only [send_manual_vector, if_pos h]
  · intro h
    simp only [send_manual_vector, if_neg h]
    have hsp : (1e-6 : ℝ) <
        max (min (hypot (rate0 * pol0) (rate1 * pol1)) MAX_JOYSTICK_SPEED)
          MIN_JOYSTICK_SPEED :=
      lt_of_lt_of_le (by norm_num [MIN_JOYSTICK_SPEED]) (le_max_right _ _)
    rw [if_pos hsp]
    refine ⟨_, rfl, rfl, ?_, ?_⟩
    all_goals
      have hrange := atan2_mem_Ioc (rate1 * pol1) (rate0 * pol0)
      have hpi := Real.pi_pos
      have h180 : (0 : ℝ) < 180 / Real.pi := by positivity
      have hub : degrees (atan2 (rate1 * pol1) (rate0 * pol0)) ≤ 180 := by
        have hmul := mul_le_mul_of_nonneg_right hrange.2 h180.le
        have hid : Real.pi * (180 / Real.pi) = 180 := by
          field_simp
        rw [degrees]
        linarith [hmul, hid.le, hid.ge]
      have hlb : (-180 : ℝ) < degrees (atan2 (rate1 * pol1) (rate0 * pol0)) := by
        have hmul := mul_lt_mul_of_pos_right hrange.1 h180
        have hid : -Real.pi * (180 / Real.pi) = -180 := by
          field_simp
          ring
        rw [degrees]
        linarith [hmul, hid.le, hid.ge]
    · by_cases hneg : degrees (atan2 (rate1 * pol1) (rate0 * pol0)) < 0
      · rw [if_pos hneg]
        linarith
      · rw [if_neg hneg]
        linarith [not_lt.mp hneg]
    · by_cases hneg : degrees (atan2 (rate1 * pol1) (rate0 * pol0)) < 0
      · rw [if_pos hneg]
        linarith
      · rw [if_neg hneg]
        linarith
  · have hm5 : hypot ((5 : ℝ) * 1) ((5 : ℝ) * 1) = Real.sqrt 50 := by norm_num [hypot]
    have hnl : ¬ hypot ((5 : ℝ) * 1) ((5 : ℝ) * 1) < 1e-6 := by
      rw [hm5]
      intro hcon
      linarith
    have hmin : min (Real.sqrt 50) MAX_JOYSTICK_SPEED = Real.sqrt 50 := by
      rw [MAX_JOYSTICK_SPEED]
      exact min_eq_left (by linarith)
    have hmax : max (Real.sqrt 50) MIN_JOYSTICK_SPEED = Real.sqrt 50 := by
      rw [MIN_JOYSTICK_SPEED]
      exact max_eq_left (by norm_num; linarith)
    have hne : Real.sqrt 50 ≠ 0 := by positivity
    have ha : atan2 ((5 : ℝ) * 1) ((5 : ℝ) * 1) = Real.pi / 4 := by
      unfold atan2
      rw [if_pos (by norm_num : (0 : ℝ) < 5 * 1),
        show ((5 : ℝ) * 1) / ((5 : ℝ) * 1) = 1 by norm_num, Real.arctan_one]
    have hdeg : degrees (Real.pi / 4) = 45 := by
      rw [degrees]
      have hpi := Real.pi_ne_zero
      field_simp
      ring
    simp only [send_manual_vector, if_neg hnl, hm5, hmin, hmax, ha, hdeg]
    rw [if_pos (by linarith : (1e-6 : ℝ) < Real.sqrt 50),
      if_neg (by norm_num : ¬(45 : ℝ) < 0), div_self hne, min_self,
      if_neg (show ¬Real.sqrt 50 < 1e-6 from fun hcon => by linarith)]
  · rw [abs_sub_lt_iff]
    constructor <;> linarith

/-- Witness for C6: the zero-rate inactive case issues nothing, the
zero-rate active case issues the stop, and the `(5, 5)` case issues the
45-degree unit-length drive at speed `√50`. -/
theorem send_manual_vector_spec_witness :
    (hypot ((0 : ℝ) * 1) ((0 : ℝ) * 1) < 1e-6 ∧
      ¬ hypot ((5 : ℝ) * 1) ((3 : ℝ) * 1) < 1e-6) ∧
    send_manual_vector 0 0 1 1 false = ManualCmd.noCommand ∧
    send_manual_vector 0 0 1 1 true = ManualCmd.stop ∧
    send_manual_vector 5 5 1 1 true = ManualCmd.drive 45 1 (Real.sqrt 50) := by
  have hm : hypot ((0 : ℝ) * 1) ((0 : ℝ) * 1) = 0 := by norm_num [hypot]
  have h0 : hypot ((0 : ℝ) * 1) ((0 : ℝ) * 1) < 1e-6 := by
    rw [hm]
    norm_num
  have h53 : ¬ hypot ((5 : ℝ) * 1) ((3 : ℝ) * 1) < 1e-6 := by
    have h1 : (1 : ℝ) ≤ hypot ((5 : ℝ) * 1) ((3 : ℝ) * 1) := by
      rw [hypot, show ((5 : ℝ) * 1) ^ 2 + ((3 : ℝ) * 1) ^ 2 = 34 by norm_num]
      nlinarith [Real.sq_sqrt (by norm_num : (0 : ℝ) ≤ 34),
        Real.sqrt_nonneg (34 : ℝ)]
    exact not_lt.mpr (le_trans (by norm_num) h1)
  refine ⟨⟨h0, h53⟩, ?_, ?_, ((send_manual_vector_spec 5 5 1 1 true).2.2).1⟩
  · exact ((send_manual_vector_spec 0 0 1 1 false).1 h0).trans (by rfl)
  · exact ((send_manual_vector_spec 0 0 1 1 true).1 h0).trans (by rfl)

end DwarfAlpaca
